import Mathlib

/-!
Verification of the scheduler core of `pogom/schedulers.py`: the
`BaseScheduler` / `HexSearch` / `SpawnOnlyHexSearch` classes.

Geographic stepping (`get_new_coords`, from the external `transform`
module) and great-circle distance (`geopy.distance`) are external
dependencies of the repository, so the model abstracts them as
parameters: the latitude/longitude pair is a value of an abstract type
`P`, and `dest : P → StepDist → Bearing → P` stands for `get_new_coords`
restricted to the distances and bearings `_generate_locations` actually
uses.  Everything the claims quantify over (point counts, ordering,
rotation, step numbering, caching, queue contents, filtering) is
independent of the concrete geodesic arithmetic.
-/

/-- The four cardinal bearings `NORTH`/`EAST`/`SOUTH`/`WEST` used by
`HexSearch._generate_locations`. -/
inductive Bearing
  | north
  | east
  | south
  | west
deriving DecidableEq

/-- The three distances `_generate_locations` passes to `get_new_coords`:
`xdist`, `ydist` and `xdist / 2`. -/
inductive StepDist
  | xdist
  | ydist
  | half_xdist
deriving DecidableEq

/-- One queue item `(step, (latitude, longitude, altitude),
appears_seconds, disappears_seconds)`.  The latitude/longitude pair is
abstracted to a single value of `P`; the altitude is the `Int` component
of `location`. -/
structure ScanItem (P : Type) where
  step : Nat
  location : P × Int
  appears_seconds : Nat
  disappears_seconds : Nat
deriving DecidableEq

/-- Run a coordinate update `n` times, recording the position after each
update: one `for i in range(n)` loop of `_generate_locations` that calls
`get_new_coords` and then appends the new position. -/
def steps {P : Type} (f : P → P) : Nat → P → P × List P
  | 0, loc => (loc, [])
  | n + 1, loc => ((steps f n (f loc)).1, f loc :: (steps f n (f loc)).2)

/-- One iteration of the upper-part `while ring < self.step_limit` loop of
`HexSearch._generate_locations`, at ring `r`: a column move west/east
(parity-alternating), then three legs of `r` moves each. -/
def upperRing {P : Type} (dest : P → StepDist → Bearing → P) (r : Nat) (loc : P) :
    P × List P :=
  let col := dest loc StepDist.xdist (if r % 2 = 1 then Bearing.west else Bearing.east)
  let s1 := steps (fun l =>
    dest (dest l StepDist.ydist Bearing.north) StepDist.half_xdist
      (if r % 2 = 1 then Bearing.east else Bearing.west)) r col
  let s2 := steps (fun l =>
    dest l StepDist.xdist (if r % 2 = 1 then Bearing.east else Bearing.west)) r s1.1
  let s3 := steps (fun l =>
    dest (dest l StepDist.ydist Bearing.south) StepDist.half_xdist
      (if r % 2 = 1 then Bearing.east else Bearing.west)) r s2.1
  (s3.1, col :: (s1.2 ++ s2.2 ++ s3.2))

/-- Rings `1..n` of the upper part, threading the cursor position from
each ring into the next. -/
def upperRings {P : Type} (dest : P → StepDist → Bearing → P) : Nat → P → P × List P
  | 0, loc => (loc, [])
  | n + 1, loc =>
    let u := upperRings dest n loc
    let r := upperRing dest (n + 1) u.1
    (r.1, u.2 ++ r.2)

/-- The `while ring > 0` loop of the lower part of
`HexSearch._generate_locations`, entered at ring `r`.  For `ring == 1`
the body is the single closing west move; otherwise it walks
`ring - 1` + `ring` + `ring - 1` leg moves followed by one closing move,
then decrements the ring. -/
def lowerLoop {P : Type} (dest : P → StepDist → Bearing → P) : Nat → P → List P
  | 0, _ => []
  | r + 1, loc =>
    if r = 0 then [dest loc StepDist.xdist Bearing.west]
    else
      let s1 := steps (fun l =>
        dest (dest l StepDist.ydist Bearing.south) StepDist.half_xdist
          (if (r + 1) % 2 = 1 then Bearing.west else Bearing.east)) r loc
      let s2 := steps (fun l =>
        dest l StepDist.xdist
          (if (r + 1) % 2 = 1 then Bearing.west else Bearing.east)) (r + 1) s1.1
      let s3 := steps (fun l =>
        dest (dest l StepDist.ydist Bearing.north) StepDist.half_xdist
          (if (r + 1) % 2 = 1 then Bearing.west else Bearing.east)) r s2.1
      let close := dest s3.1 StepDist.xdist
        (if (r + 1) % 2 = 1 then Bearing.east else Bearing.west)
      s1.2 ++ (s2.2 ++ (s3.2 ++ close :: lowerLoop dest r close))

/-- The pre-rotation `results` list of `HexSearch._generate_locations`
(the state of `results` just before the `step_limit >= 3` rotation):
the center, then the upper rings `1..step_limit-1`, then the lower-part
entry move and the descending lower loop. -/
def rawResults {P : Type} (dest : P → StepDist → Bearing → P) (step_limit : Nat)
    (center : P) : List P :=
  center ::
    (if step_limit > 1 then
      let u := upperRings dest (step_limit - 1) center
      let start := dest (dest u.1 StepDist.ydist Bearing.south) StepDist.half_xdist
        (if (step_limit - 1) % 2 = 1 then Bearing.west else Bearing.east)
      u.2 ++ start :: lowerLoop dest (step_limit - 1) start
    else [])

/-- The rotation of lines 179-183 of `schedulers.py`: when
`step_limit >= 3`, pull the last 2 (for `step_limit == 3`) or last 7
(otherwise) points to the front of the list.  `l.drop (l.length - k)`
and `l.take (l.length - k)` are the Python slices `l[-k:]` and `l[:-k]`
(including their behaviour when `l` is shorter than `k`). -/
def rotateStep {P : Type} (step_limit : Nat) (results : List P) : List P :=
  if 3 ≤ step_limit then
    if step_limit = 3 then
      results.drop (results.length - 2) ++ results.take (results.length - 2)
    else
      results.drop (results.length - 7) ++ results.take (results.length - 7)
  else results

/-- The `for step, location in enumerate(results, 1)` loop building
`locationsZeroed`: attach the 1-based step index, zero the altitude and
both time fields. -/
def attachSteps {P : Type} : Nat → List P → List (ScanItem P)
  | _, [] => []
  | n, p :: ps => ⟨n, (p, 0), 0, 0⟩ :: attachSteps (n + 1) ps

/-- `HexSearch._generate_locations` for a stored scan location `center`
(latitude/longitude pair plus altitude): raw spiral, rotation, then step
numbering and zeroed time fields. -/
def generate {P : Type} (dest : P → StepDist → Bearing → P) (step_limit : Nat)
    (center : P × Int) : List (ScanItem P) :=
  attachSteps 1 (rotateStep step_limit (rawResults dest step_limit center.1))

/-- Number of points one run of the lower-part loop emits (counting
helper mirroring `lowerLoop`). -/
def lowerLen : Nat → Nat
  | 0 => 0
  | r + 1 => if r = 0 then 1 else r + ((r + 1) + (r + (1 + lowerLen r)))

/-- Mutable state of a `HexSearch` scheduler.  `scan_location` and
`locations` start out as the Python literal `False` (modelled by `none`);
each queue is the list of its items in FIFO order (front of the list is
the next item `get` would return). -/
structure SchedulerState (P : Type) where
  scan_location : Option (P × Int)
  locations : Option (List (ScanItem P))
  queues : List (List (ScanItem P))
deriving DecidableEq

/-- Python truthiness test `not self.locations`: true when the field is
still `False` and also when it holds the empty list. -/
def cache_missing {P : Type} : Option (List (ScanItem P)) → Bool
  | none => true
  | some l => l.isEmpty

/-- `BaseScheduler.empty_queues`: drain every queue in the queue set. -/
def empty_queues {P : Type} (s : SchedulerState P) : SchedulerState P :=
  { s with queues := s.queues.map fun _ => [] }

/-- `HexSearch.location_changed`: store the new scan location, drain the
queues, and reset the cached `locations` to `False`. -/
def location_changed {P : Type} (loc : P × Int) (s : SchedulerState P) :
    SchedulerState P :=
  { empty_queues { s with scan_location := some loc } with locations := none }

/-- `HexSearch.schedule`, with `gen` standing for the dynamically
dispatched `self._generate_locations`.  When no scan location is set it
warns and returns; otherwise it regenerates the plan exactly when
`not self.locations`, and puts every plan item, in order, into the queue
at index 0.  The second component counts the generator invocations (0 or
1), the observable the spec's cache-invalidation test counts. -/
def schedule {P : Type} (gen : P × Int → List (ScanItem P))
    (s : SchedulerState P) : SchedulerState P × Nat :=
  match s.scan_location with
  | none => (s, 0)
  | some c =>
    let planCalls :=
      if cache_missing s.locations then (gen c, 1) else (s.locations.getD [], 0)
    ({ s with
        locations := some planCalls.1,
        queues := s.queues.modifyHead fun q => q ++ planCalls.1 }, planCalls.2)

/-- `SpawnOnlyHexSearch._any_spawnpoints_in_range`; `meters` stands for
the external great-circle distance `geopy.distance.distance(..).meters`
between an item location and a spawnpoint. -/
def any_spawnpoints_in_range {P S : Type} (meters : P × Int → S → ℚ)
    (coords : P × Int) (spawnpoints : List S) : Bool :=
  spawnpoints.any fun x => meters coords x ≤ 70

/-- `SpawnOnlyHexSearch._generate_locations`: generate the hex plan,
then keep exactly the items that have a spawnpoint in range;
`spawnpoints` is the list returned by the external store query. -/
def spawn_only_generate {P S : Type} (dest : P → StepDist → Bearing → P)
    (meters : P × Int → S → ℚ) (step_limit : Nat) (spawnpoints : List S)
    (center : P × Int) : List (ScanItem P) :=
  (generate dest step_limit center).filter fun coords =>
    any_spawnpoints_in_range meters coords.location spawnpoints

-- ------------------------------------------------------------------
-- Helper lemmas
-- ------------------------------------------------------------------

theorem steps_len {P : Type} (f : P → P) :
    ∀ (n : Nat) (loc : P), ((steps f n loc).2).length = n := by
  intro n
  induction n with
  | zero => intro loc; rfl
  | succ k ih => intro loc; simp [steps, ih]

theorem upperRing_length {P : Type} (dest : P → StepDist → Bearing → P)
    (r : Nat) (loc : P) : (upperRing dest r loc).2.length = 1 + 3 * r := by
  simp only [upperRing, List.length_cons, List.length_append, steps_len]
  omega

theorem upperRings_len {P : Type} (dest : P → StepDist → Bearing → P) :
    ∀ (n : Nat) (loc : P),
      2 * (upperRings dest n loc).2.length = n * (3 * n + 5) := by
  intro n
  induction n with
  | zero => intro loc; rfl
  | succ k ih =>
    intro loc
    simp only [upperRings, List.length_append, upperRing_length]
    have h := ih loc
    zify at h ⊢
    linear_combination h

theorem lowerLoop_length {P : Type} (dest : P → StepDist → Bearing → P) :
    ∀ (r : Nat) (loc : P), (lowerLoop dest r loc).length = lowerLen r := by
  intro r
  induction r with
  | zero => intro loc; rfl
  | succ k ih =>
    intro loc
    by_cases hk : k = 0
    · subst hk; rfl
    · simp only [lowerLoop, lowerLen, if_neg hk, List.length_append,
        List.length_cons, steps_len, ih]
      omega

theorem lowerLen_closed :
    ∀ r : Nat, 2 * lowerLen (r + 1) + 2 = 3 * (r + 1) * (r + 1) + (r + 1) := by
  intro r
  induction r with
  | zero => rfl
  | succ k ih =>
    have h : lowerLen (k + 1 + 1)
        = (k + 1) + ((k + 1 + 1) + ((k + 1) + (1 + lowerLen (k + 1)))) := by
      simp [lowerLen]
    rw [h]
    zify at ih ⊢
    linear_combination ih

theorem rawResults_length {P : Type} (dest : P → StepDist → Bearing → P)
    (c : P) (N : Nat) (h : 1 ≤ N) :
    (rawResults dest N c).length = 1 + 3 * N * (N - 1) := by
  match N, h with
  | 1, _ => rfl
  | M + 2, _ =>
    have hu := upperRings_len dest (M + 1) c
    have hl := lowerLen_closed M
    have hr : (rawResults dest (M + 2) c).length
        = 1 + ((upperRings dest (M + 1) c).2.length + (1 + lowerLen (M + 1))) := by
      simp only [rawResults, if_pos (by omega : M + 2 > 1),
        show M + 2 - 1 = M + 1 from rfl, List.length_cons,
        List.length_append, lowerLoop_length]
      omega
    rw [hr]
    have hsub : M + 2 - 1 = M + 1 := rfl
    rw [hsub]
    have h2 : 2 * (1 + ((upperRings dest (M + 1) c).2.length + (1 + lowerLen (M + 1))))
        = 2 * (1 + 3 * (M + 2) * (M + 1)) := by
      zify at hu hl ⊢
      linear_combination hu + hl
    exact Nat.eq_of_mul_eq_mul_left (by norm_num) h2

theorem rotateStep_perm {P : Type} (N : Nat) (l : List P) :
    List.Perm (rotateStep N l) l := by
  unfold rotateStep
  split_ifs with h1 h2
  · exact List.Perm.trans List.perm_append_comm
      (by rw [List.take_append_drop])
  · exact List.Perm.trans List.perm_append_comm
      (by rw [List.take_append_drop])
  · exact List.Perm.refl l

theorem attachSteps_length {P : Type} :
    ∀ (l : List P) (n : Nat), (attachSteps n l).length = l.length := by
  intro l
  induction l with
  | nil => intro n; rfl
  | cons p ps ih => intro n; simp [attachSteps, ih]

theorem attachSteps_get_fields {P : Type} :
    ∀ (l : List P) (n i : Nat) (h : i < (attachSteps n l).length),
      ((attachSteps n l).get ⟨i, h⟩).step = n + i
      ∧ ((attachSteps n l).get ⟨i, h⟩).appears_seconds = 0
      ∧ ((attachSteps n l).get ⟨i, h⟩).disappears_seconds = 0 := by
  intro l
  induction l with
  | nil => intro n i h; simp [attachSteps] at h
  | cons p ps ih =>
    intro n i h
    cases i with
    | zero => exact ⟨rfl, rfl, rfl⟩
    | succ j =>
      have h' : j < (attachSteps (n + 1) ps).length := by
        simpa [attachSteps] using h
      obtain ⟨h1, h2, h3⟩ := ih (n + 1) j h'
      exact ⟨h1.trans (by omega), h2, h3⟩

theorem attachSteps_map_location {P : Type} :
    ∀ (l : List P) (n : Nat),
      (attachSteps n l).map ScanItem.location = l.map (fun p => (p, (0 : Int))) := by
  intro l
  induction l with
  | nil => intro n; rfl
  | cons p ps ih => intro n; simp [attachSteps, ih]

/-- Concrete geodesic stub (position counter) used by the witnesses. -/
def destNat : Nat → StepDist → Bearing → Nat := fun p _ _ => p + 1

/-- Concrete distance function used by the witnesses: every spawnpoint at
distance 0. -/
def metersZero : Nat × Int → Unit → ℚ := fun _ _ => 0

/-- Concrete distance function placing the spawnpoint 71 m from the
center position and 0 m from every other position. -/
def metersCenterFar : Nat × Int → Unit → ℚ := fun loc _ =>
  if loc.1 = 0 then 71 else 0

/-- Concrete generator stub returning the empty plan. -/
def genEmpty : Nat × Int → List (ScanItem Nat) := fun _ => []

-- ------------------------------------------------------------------
-- Claim theorems
-- ------------------------------------------------------------------

/-- C1: for every center location and every `stepLimit = N ≥ 1`, the
pre-rotation output of the spiral generator contains exactly
`1 + 3*N*(N-1)` points, and the rotation step produces a permutation of
that sequence (no point added, dropped, or modified, only reordered). -/
theorem hex_raw_count_and_rotation_perm {P : Type}
    (dest : P → StepDist → Bearing → P) (c : P × Int) (N : Nat) (h : 1 ≤ N) :
    (rawResults dest N c.1).length = 1 + 3 * N * (N - 1)
    ∧ List.Perm (rotateStep N (rawResults dest N c.1)) (rawResults dest N c.1) :=
  ⟨rawResults_length dest c.1 N h, rotateStep_perm N _⟩

theorem hex_raw_count_and_rotation_perm_witness :
    (rawResults destNat 2 0).length = 1 + 3 * 2 * (2 - 1)
    ∧ List.Perm (rotateStep 2 (rawResults destNat 2 0)) (rawResults destNat 2 0) :=
  hex_raw_count_and_rotation_perm destNat (0, 0) 2 (by norm_num)

/-- C2: rotation law.  Writing `raw` for the pre-rotation point list, the
final plan's point order is `raw[-2:] ++ raw[:-2]` when `stepLimit = 3`,
`raw[-7:] ++ raw[:-7]` when `stepLimit > 3`, and `raw` unchanged when
`stepLimit < 3` (the final plan's points carry a zeroed altitude). -/
theorem hex_rotation_law {P : Type} (dest : P → StepDist → Bearing → P)
    (c : P × Int) (N : Nat) :
    (N = 3 → (generate dest N c).map ScanItem.location
        = ((rawResults dest N c.1).drop ((rawResults dest N c.1).length - 2)
            ++ (rawResults dest N c.1).take ((rawResults dest N c.1).length - 2)).map
              (fun p => (p, (0 : Int))))
    ∧ (3 < N → (generate dest N c).map ScanItem.location
        = ((rawResults dest N c.1).drop ((rawResults dest N c.1).length - 7)
            ++ (rawResults dest N c.1).take ((rawResults dest N c.1).length - 7)).map
              (fun p => (p, (0 : Int))))
    ∧ (N < 3 → (generate dest N c).map ScanItem.location
        = (rawResults dest N c.1).map (fun p => (p, (0 : Int)))) := by
  refine ⟨?_, ?_, ?_⟩
  · intro h
    subst h
    simp [generate, rotateStep, attachSteps_map_location]
  · intro h
    have h3 : 3 ≤ N := by omega
    have hne : N ≠ 3 := by omega
    simp [generate, rotateStep, h3, hne, attachSteps_map_location]
  · intro h
    have h3 : ¬ 3 ≤ N := by omega
    simp [generate, rotateStep, h3, attachSteps_map_location]

theorem hex_rotation_law_witness :
    (generate destNat 3 (0, 0)).map ScanItem.location
      = ((rawResults destNat 3 0).drop ((rawResults destNat 3 0).length - 2)
          ++ (rawResults destNat 3 0).take ((rawResults destNat 3 0).length - 2)).map
          (fun p => (p, (0 : Int))) :=
  (hex_rotation_law destNat (0, 0) 3).1 rfl

/-- C3: `location_changed` stores the new location, drains every queue
and discards the cached plan, so the next `schedule()` call invokes the
plan generator again — for every prior state, in particular also when the
new center equals the previously stored one. -/
theorem location_changed_invalidates {P : Type}
    (gen : P × Int → List (ScanItem P)) (s : SchedulerState P) (c : P × Int) :
    (location_changed c s).scan_location = some c
    ∧ (location_changed c s).locations = none
    ∧ (location_changed c s).queues = s.queues.map (fun _ => [])
    ∧ (schedule gen (location_changed c s)).2 = 1 :=
  ⟨rfl, rfl, rfl, rfl⟩

/-- C4: with a center set and a nonempty cached plan present, `schedule`
does not invoke the plan generator again, leaves the cached plan
unchanged, and re-pushes exactly the cached items onto queue 0. -/
theorem schedule_cached_plan_no_regen {P : Type}
    (gen : P × Int → List (ScanItem P)) (s : SchedulerState P)
    (c : P × Int) (plan : List (ScanItem P))
    (hc : s.scan_location = some c) (hl : s.locations = some plan)
    (hne : plan ≠ []) :
    (schedule gen s).2 = 0
    ∧ (schedule gen s).1.locations = some plan
    ∧ (schedule gen s).1.queues = s.queues.modifyHead fun q => q ++ plan := by
  have hm : cache_missing (some plan) = false := by
    cases plan with
    | nil => exact absurd rfl hne
    | cons a l => rfl
  simp [schedule, hc, hl, hm]

theorem schedule_cached_plan_no_regen_witness :
    (schedule genEmpty
        (⟨some (0, 0), some [⟨1, (0, 0), 0, 0⟩], [[]]⟩ : SchedulerState Nat)).2 = 0
    ∧ (schedule genEmpty
        (⟨some (0, 0), some [⟨1, (0, 0), 0, 0⟩], [[]]⟩ : SchedulerState Nat)).1.locations
        = some [⟨1, (0, 0), 0, 0⟩]
    ∧ (schedule genEmpty
        (⟨some (0, 0), some [⟨1, (0, 0), 0, 0⟩], [[]]⟩ : SchedulerState Nat)).1.queues
        = [[]].modifyHead fun q => q ++ [⟨1, (0, 0), 0, 0⟩] :=
  schedule_cached_plan_no_regen genEmpty _ (0, 0) [⟨1, (0, 0), 0, 0⟩] rfl rfl
    (List.cons_ne_nil _ _)

/-- C5: with a center set, `schedule` appends its plan (the cached one,
or the fresh one it just stored) to the queue at index 0 in plan order;
and in the `stepLimit = 2` dense-coverage scenario starting from one
empty queue, the queue ends up holding exactly the 7 generated items with
step indices 1..7 in order, the first at the center with both time fields
zero. -/
theorem schedule_pushes_plan_in_order {P : Type}
    (gen : P × Int → List (ScanItem P)) (s : SchedulerState P) (c : P × Int)
    (hc : s.scan_location = some c) (dest : P → StepDist → Bearing → P) (p : P) :
    (schedule gen s).1.queues
      = s.queues.modifyHead (fun q => q ++ ((schedule gen s).1.locations.getD []))
    ∧ (schedule (generate dest 2) ⟨some (p, 0), none, [[]]⟩).1.queues
        = [generate dest 2 (p, 0)]
    ∧ (generate dest 2 (p, 0)).length = 7
    ∧ (generate dest 2 (p, 0)).map ScanItem.step = [1, 2, 3, 4, 5, 6, 7]
    ∧ (generate dest 2 (p, 0)).head? = some ⟨1, (p, 0), 0, 0⟩ := by
  refine ⟨?_, rfl, rfl, rfl, rfl⟩
  by_cases hm : cache_missing s.locations
  · simp [schedule, hc, hm]
  · simp [schedule, hc, hm]

theorem schedule_pushes_plan_in_order_witness :
    (schedule genEmpty (⟨some (0, 0), some [⟨1, (0, 0), 0, 0⟩], [[]]⟩ : SchedulerState Nat)).1.queues
      = [[]].modifyHead (fun q => q ++
          ((schedule genEmpty (⟨some (0, 0), some [⟨1, (0, 0), 0, 0⟩], [[]]⟩ : SchedulerState Nat)).1.locations.getD []))
    ∧ (schedule (generate destNat 2) ⟨some (0, 0), none, [[]]⟩).1.queues
        = [generate destNat 2 (0, 0)]
    ∧ (generate destNat 2 (0, 0)).length = 7
    ∧ (generate destNat 2 (0, 0)).map ScanItem.step = [1, 2, 3, 4, 5, 6, 7]
    ∧ (generate destNat 2 (0, 0)).head? = some ⟨1, (0, 0), 0, 0⟩ :=
  schedule_pushes_plan_in_order genEmpty
    (⟨some (0, 0), some [⟨1, (0, 0), 0, 0⟩], [[]]⟩ : SchedulerState Nat) (0, 0) rfl
    destNat 0

/-- C6: the spawn-point filter keeps an item of the generated plan if and
only if at least one returned spawnpoint lies within 70 meters of the
item's location: every surviving item has such a point, every removed
item has none. -/
theorem spawn_filter_iff_within_range {P S : Type}
    (dest : P → StepDist → Bearing → P) (meters : P × Int → S → ℚ)
    (N : Nat) (sp : List S) (c : P × Int) (item : ScanItem P)
    (hmem : item ∈ generate dest N c) :
    item ∈ spawn_only_generate dest meters N sp c
      ↔ ∃ x ∈ sp, meters item.location x ≤ 70 := by
  simp [spawn_only_generate, List.mem_filter, hmem, any_spawnpoints_in_range,
    List.any_eq_true]

theorem spawn_filter_iff_within_range_witness :
    (⟨1, (0, 0), 0, 0⟩ : ScanItem Nat)
        ∈ spawn_only_generate destNat metersZero 1 [()] (0, 0)
      ↔ ∃ x ∈ [()], metersZero (⟨1, (0, 0), 0, 0⟩ : ScanItem Nat).location x ≤ 70 :=
  spawn_filter_iff_within_range destNat metersZero 1 [()] (0, 0)
    ⟨1, (0, 0), 0, 0⟩ (by decide)

/-- C7 counterexample: with `stepLimit = 2`, center `(0, 0)`, a single
spawnpoint 71 m from the center position but 0 m from every other
position, the filtering variant removes the plan's first item, so the
first item of the emitted plan carries step 2, not 1: the claim "the step
field of the i-th item of the emitted plan equals i" fails for the
filtering variant. -/
theorem spawn_filter_step_indexing_counterexample :
    ¬ (∀ (i : Nat)
        (h : i < (spawn_only_generate destNat metersCenterFar 2 [()] (0, 0)).length),
        ((spawn_only_generate destNat metersCenterFar 2 [()] (0, 0)).get ⟨i, h⟩).step
          = i + 1) := by
  intro hall
  exact absurd (hall 0 (by decide)) (by decide)

/-- C7 amended: in every plan emitted by the plain spiral generator the
i-th item's step equals i (1-based) and both time fields are 0; the
filtering variant emits a subsequence of that plan, each surviving item
keeping its original step value (it is not re-indexed). -/
theorem step_indexing_amended {P S : Type} (dest : P → StepDist → Bearing → P)
    (meters : P × Int → S → ℚ) (N : Nat) (sp : List S) (c : P × Int) :
    (∀ (i : Nat) (h : i < (generate dest N c).length),
        ((generate dest N c).get ⟨i, h⟩).step = i + 1
        ∧ ((generate dest N c).get ⟨i, h⟩).appears_seconds = 0
        ∧ ((generate dest N c).get ⟨i, h⟩).disappears_seconds = 0)
    ∧ List.Sublist (spawn_only_generate dest meters N sp c) (generate dest N c) := by
  constructor
  · intro i h
    obtain ⟨h1, h2, h3⟩ :=
      attachSteps_get_fields (rotateStep N (rawResults dest N c.1)) 1 i h
    exact ⟨h1.trans (by omega), h2, h3⟩
  · exact List.filter_sublist _

theorem step_indexing_amended_witness :
    ((generate destNat 2 (0, 0)).get ⟨0, by decide⟩).step = 0 + 1 :=
  ((step_indexing_amended destNat metersZero 2 [()] (0, 0)).1 0 (by decide)).1

/-- C8: calling `schedule` while no scan location has been set returns
normally, performs no plan generation, and leaves the whole state —
every queue included — unchanged (the warning is only logged). -/
theorem schedule_without_location_noop {P : Type}
    (gen : P × Int → List (ScanItem P)) (s : SchedulerState P)
    (h : s.scan_location = none) : schedule gen s = (s, 0) := by
  simp [schedule, h]

theorem schedule_without_location_noop_witness :
    schedule genEmpty (⟨none, none, [[]]⟩ : SchedulerState Nat)
      = (⟨none, none, [[]]⟩, 0) :=
  schedule_without_location_noop genEmpty _ rfl

/-- C9: for `stepLimit = 1` the plan generator returns exactly one
ScanItem, located at the center (its latitude/longitude, altitude 0),
with step 1 and both time fields 0. -/
theorem hex_generate_steplimit_one {P : Type}
    (dest : P → StepDist → Bearing → P) (c : P × Int) :
    generate dest 1 c = [⟨1, (c.1, 0), 0, 0⟩] := rfl

/-- C10: an empty cached plan is treated exactly like the absent-plan
sentinel: `schedule` invokes the generator, stores its output, and when
that output is again empty the next call invokes the generator once
more — only non-empty plans are ever retained by the cache. -/
theorem empty_cached_plan_regenerates {P : Type}
    (gen : P × Int → List (ScanItem P)) (s : SchedulerState P) (c : P × Int)
    (hc : s.scan_location = some c) (hl : s.locations = some []) :
    (schedule gen s).2 = 1
    ∧ (schedule gen s).1.locations = some (gen c)
    ∧ (gen c = [] → (schedule gen ((schedule gen s).1)).2 = 1) := by
  refine ⟨?_, ?_, ?_⟩
  · simp [schedule, hc, hl, cache_missing]
  · simp [schedule, hc, hl, cache_missing]
  · intro hg
    have hc' : (schedule gen s).1.scan_location = some c := by
      simp [schedule, hc]
    have hl' : (schedule gen s).1.locations = some [] := by
      simp [schedule, hc, hl, cache_missing, hg]
    generalize hS : (schedule gen s).1 = s' at hc' hl'
    simp [schedule, hc', hl', cache_missing]

theorem empty_cached_plan_regenerates_witness :
    (schedule genEmpty (⟨some (0, 0), some [], [[]]⟩ : SchedulerState Nat)).2 = 1
    ∧ (schedule genEmpty (⟨some (0, 0), some [], [[]]⟩ : SchedulerState Nat)).1.locations
        = some (genEmpty (0, 0))
    ∧ (genEmpty (0, 0) = [] →
        (schedule genEmpty
          ((schedule genEmpty (⟨some (0, 0), some [], [[]]⟩ : SchedulerState Nat)).1)).2 = 1) :=
  empty_cached_plan_regenerates genEmpty _ (0, 0) rfl rfl
